import Mathlib

/-!
Verification of the MGB Dash 2026 control core against its specification.

The definitions below are shallow embeddings of the C++ sources:
bytes and counters are `Nat` (with explicit `% 2^32` where the source relies
on unsigned wraparound), `double`/`float` arithmetic is modelled over `ℚ`
(or `ℝ` where the source uses transcendental functions), and hardware
effects (the TWAI controller, the serial port) appear as explicit outcome
values.  Each definition names the source function it embeds.
-/

set_option maxHeartbeats 1000000
set_option linter.unnecessarySeqFocus false

namespace MgbDash

/-- A CAN frame as it appears on the wire: identifier plus payload bytes.
The data-length code of the source's `twai_message_t` equals the payload
list's length here. -/
structure CanFrame where
  id : Nat
  data : List Nat
deriving Repr, DecidableEq

/-- Lower bound of the reserved custom identifier range
(`can_ids.h`: `CAN_CUSTOM_ID_MIN = 0x700`). -/
def CAN_CUSTOM_ID_MIN : Nat := 0x700

/-- Upper bound of the reserved custom identifier range
(`can_ids.h`: `CAN_CUSTOM_ID_MAX = 0x73F`). -/
def CAN_CUSTOM_ID_MAX : Nat := 0x73F

/-- Identifier of the structured log frame (`can_ids.h`: `CAN_ID_LOG = 0x731`). -/
def CAN_ID_LOG : Nat := 0x731

/-- Identifier of the log text continuation frame
(`can_ids.h`: `CAN_ID_LOG_TEXT = 0x732`). -/
def CAN_ID_LOG_TEXT : Nat := 0x732

/-- Driver state of the `CanBus` wrapper (`CanBus.h`): whether
`twai_driver_install` succeeded (`installed_`) and whether the controller is
in the bus-off state (`busOff_`). -/
structure CanBusState where
  installed : Bool
  busOff : Bool
deriving Repr, DecidableEq

/-- Outcome of a transmit call: the `bool` the source returns, the frames
that actually appeared on the wire, and whether control reached
`CanBus::transmit` (the controller-level transmit). -/
structure TxOutcome where
  ok : Bool
  frames : List CanFrame
  controllerInvoked : Bool
deriving Repr, DecidableEq

/-- Embeds `CanBus::transmit` (`CanBus.cpp`): returns `false` at once when the
driver is not installed or the bus is off; otherwise hands the frame to
`twai_transmit`, whose acceptance is the environment parameter `hwAccept`
(queue full / timeout gives `false`, the frame is dropped). -/
def CanBus.transmit (s : CanBusState) (hwAccept : Bool) (i : Nat) (data : List Nat) :
    TxOutcome :=
  if !s.installed || s.busOff then ⟨false, [], true⟩
  else if hwAccept then ⟨true, [⟨i, data⟩], true⟩
  else ⟨false, [], true⟩

/-- Embeds `CanBus::safeTransmit` (`CanBus.cpp`): the ID range guard.  An
identifier outside `[CAN_CUSTOM_ID_MIN, CAN_CUSTOM_ID_MAX]` is rejected with
`false` before `CanBus::transmit` is ever called. -/
def CanBus.safeTransmit (s : CanBusState) (hwAccept : Bool) (i : Nat) (data : List Nat) :
    TxOutcome :=
  if i < CAN_CUSTOM_ID_MIN || i > CAN_CUSTOM_ID_MAX then ⟨false, [], false⟩
  else CanBus.transmit s hwAccept i data

/-- C1: `safeTransmit` reaches the underlying controller-level transmit if and
only if `0x700 ≤ id ≤ 0x73F`; for every identifier outside the reserved range
it returns `false` without invoking `CanBus::transmit`, and the boundaries
behave as claimed: `0x6FF` and `0x740` are rejected, `0x700` and `0x73F` are
accepted by the guard. -/
theorem safeTransmit_guard (s : CanBusState) (hw : Bool) (i : Nat) (data : List Nat) :
    ((CanBus.safeTransmit s hw i data).controllerInvoked = true ↔
      (CAN_CUSTOM_ID_MIN ≤ i ∧ i ≤ CAN_CUSTOM_ID_MAX)) ∧
    (i < CAN_CUSTOM_ID_MIN ∨ CAN_CUSTOM_ID_MAX < i →
      (CanBus.safeTransmit s hw i data).ok = false ∧
      (CanBus.safeTransmit s hw i data).controllerInvoked = false) ∧
    (CanBus.safeTransmit s hw 0x6FF data).controllerInvoked = false ∧
    (CanBus.safeTransmit s hw 0x740 data).controllerInvoked = false ∧
    (CanBus.safeTransmit s hw 0x700 data).controllerInvoked = true ∧
    (CanBus.safeTransmit s hw 0x73F data).controllerInvoked = true := by
  unfold CanBus.safeTransmit CanBus.transmit CAN_CUSTOM_ID_MIN CAN_CUSTOM_ID_MAX
  refine ⟨?_, ?_, ?_, ?_, ?_, ?_⟩ <;>
    split_ifs <;>
      simp_all <;> omega

/-! ## Body controller GPIO flags and hazard detection
(src/esp32/src/body_controller/main.cpp, `readGpio`) -/

/-- Body state flag masks (`can_ids.h`): bit 0 key-on, 1 brake, 2 regen,
3 fan, 4 reverse, 5 left turn, 6 right turn, 7 hazard. -/
def BODY_FLAG_KEY_ON : Nat := 1 <<< 0

/-- Brake flag mask (`can_ids.h`). -/
def BODY_FLAG_BRAKE : Nat := 1 <<< 1

/-- Regen flag mask (`can_ids.h`). -/
def BODY_FLAG_REGEN : Nat := 1 <<< 2

/-- Fan flag mask (`can_ids.h`). -/
def BODY_FLAG_FAN : Nat := 1 <<< 3

/-- Reverse flag mask (`can_ids.h`). -/
def BODY_FLAG_REVERSE : Nat := 1 <<< 4

/-- Left-turn flag mask (`can_ids.h`). -/
def BODY_FLAG_LEFT_TURN : Nat := 1 <<< 5

/-- Right-turn flag mask (`can_ids.h`). -/
def BODY_FLAG_RIGHT_TURN : Nat := 1 <<< 6

/-- Hazard flag mask (`can_ids.h`). -/
def BODY_FLAG_HAZARD : Nat := 1 <<< 7

/-- Hazard detection window (`main.cpp`: `HAZARD_WINDOW_MS = 50`). -/
def HAZARD_WINDOW_MS : Nat := 50

/-- Persistent state of the hazard detection state machine (`main.cpp`
globals `leftActive`, `rightActive`, `leftOnMs`, `rightOnMs`). -/
structure TurnState where
  leftActive : Bool
  rightActive : Bool
  leftOnMs : Nat
  rightOnMs : Nat
deriving Repr, DecidableEq

/-- Base flag byte built by `readGpio` before the hazard logic: the ors of
the key-on/brake/regen/fan/reverse masks. -/
def baseFlags (keyOn brake regen fan reverse : Bool) : Nat :=
  let f0 : Nat := 0
  let f1 := if keyOn then f0 ||| BODY_FLAG_KEY_ON else f0
  let f2 := if brake then f1 ||| BODY_FLAG_BRAKE else f1
  let f3 := if regen then f2 ||| BODY_FLAG_REGEN else f2
  let f4 := if fan then f3 ||| BODY_FLAG_FAN else f3
  if reverse then f4 ||| BODY_FLAG_REVERSE else f4

/-- Embeds `readGpio` (`main.cpp`, body controller), minus the key-on edge
logging: the debounced input levels (already inverted for the active-low
optocouplers) are folded into the broadcast flag byte; an off-to-on
transition of left/right stamps `now` into the matching timestamp, and when
both inputs are active the timestamp distance decides hazard versus
independent left+right.  Returns the flag byte and the updated
turn-signal state. -/
def readGpio (st : TurnState) (now : Nat)
    (keyOn brake regen fan reverse left right : Bool) : Nat × TurnState :=
  let base := baseFlags keyOn brake regen fan reverse
  let leftOn := if left && !st.leftActive then now else st.leftOnMs
  let rightOn := if right && !st.rightActive then now else st.rightOnMs
  let flags :=
    if left && right then
      let delta := if leftOn > rightOn then leftOn - rightOn else rightOn - leftOn
      if delta ≤ HAZARD_WINDOW_MS then base ||| BODY_FLAG_HAZARD
      else (base ||| BODY_FLAG_LEFT_TURN) ||| BODY_FLAG_RIGHT_TURN
    else
      let fl := if left then base ||| BODY_FLAG_LEFT_TURN else base
      if right then fl ||| BODY_FLAG_RIGHT_TURN else fl
  (flags, ⟨left, right, leftOn, rightOn⟩)

/-- The base flag byte only ever uses bits 0 to 4. -/
theorem baseFlags_lt (keyOn brake regen fan reverse : Bool) :
    baseFlags keyOn brake regen fan reverse < 32 := by
  unfold baseFlags BODY_FLAG_KEY_ON BODY_FLAG_BRAKE BODY_FLAG_REGEN
    BODY_FLAG_FAN BODY_FLAG_REVERSE
  rcases keyOn <;> rcases brake <;> rcases regen <;> rcases fan <;>
    rcases reverse <;> decide

/-- A natural number below `2 ^ 5` has bits 5, 6 and 7 clear. -/
theorem testBit_high_of_lt_32 (n : Nat) (h : n < 32) :
    n.testBit 5 = false ∧ n.testBit 6 = false ∧ n.testBit 7 = false :=
  ⟨Nat.testBit_lt_two_pow (by omega), Nat.testBit_lt_two_pow (by omega),
    Nat.testBit_lt_two_pow (by omega)⟩

/-- Timestamp distance used by the hazard comparison in `readGpio`
(`main.cpp`: the branch computing `delta`). -/
def hazardDelta (leftOn rightOn : Nat) : Nat :=
  if leftOn > rightOn then leftOn - rightOn else rightOn - leftOn

/-- C2: in the body controller's flag update, when the left and right inputs
are both active and the distance between their most recent off-to-on
transition timestamps (as updated by this very call) is within the 50 ms
hazard window, the broadcast flag byte has the HAZARD bit (bit 7) set and
neither LEFT_TURN (bit 5) nor RIGHT_TURN (bit 6); when both are active but
the distance exceeds the window, LEFT_TURN and RIGHT_TURN are both set and
HAZARD is clear. -/
theorem readGpio_hazard_spec (st : TurnState) (now : Nat)
    (keyOn brake regen fan reverse : Bool) (flags : Nat) (st' : TurnState)
    (hrun : readGpio st now keyOn brake regen fan reverse true true = (flags, st')) :
    (hazardDelta st'.leftOnMs st'.rightOnMs ≤ HAZARD_WINDOW_MS →
      flags.testBit 7 = true ∧ flags.testBit 5 = false ∧ flags.testBit 6 = false) ∧
    (hazardDelta st'.leftOnMs st'.rightOnMs > HAZARD_WINDOW_MS →
      flags.testBit 5 = true ∧ flags.testBit 6 = true ∧ flags.testBit 7 = false) := by
  have hbase := baseFlags_lt keyOn brake regen fan reverse
  obtain ⟨h5, h6, h7⟩ := testBit_high_of_lt_32 _ hbase
  simp only [readGpio, Bool.and_true, Bool.true_and, Bool.and_self, if_pos] at hrun
  obtain ⟨hflags, hst'⟩ := Prod.mk.injEq _ _ _ _ ▸ hrun
  subst hst'
  simp only [hazardDelta]
  constructor
  · intro hle
    rw [← hflags]
    rw [if_pos (by simpa [hazardDelta, HAZARD_WINDOW_MS] using hle)]
    unfold BODY_FLAG_HAZARD
    refine ⟨?_, ?_, ?_⟩ <;>
      simp [Nat.testBit_lor, h5, h6, h7] <;> decide
  · intro hgt
    rw [← hflags]
    rw [if_neg (by simpa [hazardDelta, HAZARD_WINDOW_MS] using Nat.not_le.mpr hgt)]
    unfold BODY_FLAG_LEFT_TURN BODY_FLAG_RIGHT_TURN
    refine ⟨?_, ?_, ?_⟩ <;>
      simp [Nat.testBit_lor, h5, h6, h7] <;> decide

/-- Witness for C2 at a concrete input: from the all-idle state, both inputs
turning on in the same 10 ms loop pass give a flag byte of `128`: hazard set,
left and right clear. -/
theorem readGpio_hazard_spec_witness :
    readGpio ⟨false, false, 0, 0⟩ 10 false false false false false true true =
      (128, ⟨true, true, 10, 10⟩) ∧
    Nat.testBit 128 7 = true ∧ Nat.testBit 128 5 = false ∧
    Nat.testBit 128 6 = false := by
  refine ⟨by decide, ?_⟩
  exact (readGpio_hazard_spec ⟨false, false, 0, 0⟩ 10 false false false false false
    128 ⟨true, true, 10, 10⟩ (by decide)).1 (by decide)

/-! ## Speed and odometer (src/esp32/src/body_controller/main.cpp) -/

/-- Unsigned 32-bit wraparound subtraction `a - b` as the source's
`uint32_t` / `unsigned long` arithmetic computes it. -/
def u32sub (a b : Nat) : Nat := (a + (2 ^ 32 - b % 2 ^ 32)) % 2 ^ 32

/-- No-pulse timeout (`main.cpp`: `SPEED_ZERO_TIMEOUT_US = 500000`). -/
def SPEED_ZERO_TIMEOUT_US : Nat := 500000

/-- Mutable state of the speed/odometer computation (`main.cpp` globals
`prevPulseCount`, `prevSpeedMs`, `speedMph`, `odometerMiles`,
`odometerSinceLastPersist`).  The `double` values are modelled over `ℚ`. -/
structure SpeedState where
  prevPulseCount : Nat
  prevSpeedMs : Nat
  speedMph : ℚ
  odometerMiles : ℚ
  odometerSinceLastPersist : ℚ
deriving Repr, DecidableEq

/-- Embeds `computeSpeed` (`main.cpp`, body controller).  `pulses` and
`lastPulseUs` are the interrupt-snapshot of `hallPulseCount` /
`lastHallPulseUs`, `nowMs` the loop's `millis()` sample and `nowUs` the
`micros()` value read inside the zero-pulse branch.  `milesPerPulse` stands
for the compile-time constant `MILES_PER_PULSE`, whose defining constants
(tire diameter, magnet count, differential ratio) live in a per-vehicle
configuration header that is not part of the sources here. -/
def computeSpeed (milesPerPulse : ℚ) (s : SpeedState)
    (pulses lastPulseUs nowMs nowUs : Nat) : SpeedState :=
  let pulseDelta := u32sub pulses s.prevPulseCount
  let timeDeltaMs := u32sub nowMs s.prevSpeedMs
  let distDelta := (pulseDelta : ℚ) * milesPerPulse
  let odo := s.odometerMiles + distDelta
  let odoSince := s.odometerSinceLastPersist + distDelta
  let speed :=
    if timeDeltaMs > 0 ∧ pulseDelta > 0 then
      ((pulseDelta : ℚ) / ((timeDeltaMs : ℚ) / 1000)) * milesPerPulse * 3600
    else if pulseDelta = 0 then
      (if lastPulseUs = 0 ∨ u32sub nowUs lastPulseUs > SPEED_ZERO_TIMEOUT_US then 0
       else s.speedMph)
    else s.speedMph
  ⟨pulses, nowMs, speed, odo, odoSince⟩

/-- C3: in any sample window in which no new hall pulse arrived
(`pulseDelta = 0`) and a pulse has been recorded before (`lastPulseUs ≠ 0`,
the source's sentinel for "no pulse yet"): when the time since that pulse
exceeds the 500 ms timeout the computed speed becomes exactly `0`, and when
the timeout has not elapsed the previous speed value is retained
unchanged. -/
theorem computeSpeed_zero_pulse_spec (milesPerPulse : ℚ) (s : SpeedState)
    (pulses lastPulseUs nowMs nowUs : Nat)
    (hdelta : u32sub pulses s.prevPulseCount = 0)
    (hrec : lastPulseUs ≠ 0) :
    (u32sub nowUs lastPulseUs > SPEED_ZERO_TIMEOUT_US →
      (computeSpeed milesPerPulse s pulses lastPulseUs nowMs nowUs).speedMph = 0) ∧
    (u32sub nowUs lastPulseUs ≤ SPEED_ZERO_TIMEOUT_US →
      (computeSpeed milesPerPulse s pulses lastPulseUs nowMs nowUs).speedMph
        = s.speedMph) := by
  constructor
  · intro hto
    simp only [computeSpeed, hdelta]
    norm_num
    intro _ h2
    exact absurd h2 (Nat.not_le.mpr hto)
  · intro hto
    simp only [computeSpeed, hdelta]
    norm_num
    intro h
    rcases h with h | h
    · exact absurd h hrec
    · exact absurd h (Nat.not_lt.mpr hto)

/-- Witness for C3 at a concrete input: with no new pulse and only 400 ms
since the last recorded pulse, the previous speed `35/2` mph is held; after
600 ms it drops to `0`. -/
theorem computeSpeed_zero_pulse_spec_witness :
    u32sub 7 7 = 0 ∧
    (computeSpeed 1 ⟨7, 0, 35/2, 3, 1⟩ 7 1000 500 401000).speedMph = 35/2 ∧
    (computeSpeed 1 ⟨7, 0, 35/2, 3, 1⟩ 7 1000 700 601000).speedMph = 0 := by
  refine ⟨by decide, ?_, ?_⟩
  · exact (computeSpeed_zero_pulse_spec 1 ⟨7, 0, 35/2, 3, 1⟩ 7 1000 500 401000
      (by decide) (by decide)).2 (by decide)
  · exact (computeSpeed_zero_pulse_spec 1 ⟨7, 0, 35/2, 3, 1⟩ 7 1000 700 601000
      (by decide) (by decide)).1 (by decide)

/-- Embeds the body controller's sampling loop: `computeSpeed` folded over a
sequence of interrupt snapshots, each sample being
`(pulses, lastPulseUs, nowMs, nowUs)`. -/
def runSamples (milesPerPulse : ℚ) (s : SpeedState)
    (samples : List (Nat × Nat × Nat × Nat)) : SpeedState :=
  samples.foldl
    (fun st q => computeSpeed milesPerPulse st q.1 q.2.1 q.2.2.1 q.2.2.2) s

/-- Embeds `persistOdoIfNeeded` (`main.cpp`, body controller): when the
since-last-persist accumulator has reached the threshold, the odometer is
written to NVS (the returned `Bool` records that write) and the accumulator
is reset to zero.  The threshold stands for `ODO_PERSIST_MILES`, a constant
from the per-vehicle configuration header that is not part of the sources
here. -/
def persistOdoIfNeeded (odoPersistMiles : ℚ) (s : SpeedState) :
    SpeedState × Bool :=
  if s.odometerSinceLastPersist ≥ odoPersistMiles then
    ({ s with odometerSinceLastPersist := 0 }, true)
  else (s, false)

/-- One `computeSpeed` step never decreases the odometer accumulator
(pulse deltas are unsigned, hence non-negative). -/
theorem computeSpeed_odometer_le (milesPerPulse : ℚ) (s : SpeedState)
    (pulses lastPulseUs nowMs nowUs : Nat) (hmpp : 0 ≤ milesPerPulse) :
    s.odometerMiles
      ≤ (computeSpeed milesPerPulse s pulses lastPulseUs nowMs nowUs).odometerMiles := by
  simp only [computeSpeed]
  have h : (0 : ℚ) ≤ (u32sub pulses s.prevPulseCount : ℚ) * milesPerPulse :=
    mul_nonneg (Nat.cast_nonneg _) hmpp
  linarith

/-- Folding `computeSpeed` over any sample sequence never decreases the
odometer accumulator. -/
theorem runSamples_odometer_le (milesPerPulse : ℚ)
    (samples : List (Nat × Nat × Nat × Nat)) (s : SpeedState)
    (hmpp : 0 ≤ milesPerPulse) :
    s.odometerMiles ≤ (runSamples milesPerPulse s samples).odometerMiles := by
  induction samples generalizing s with
  | nil => simp [runSamples]
  | cons q rest ih =>
    calc s.odometerMiles
        ≤ (computeSpeed milesPerPulse s q.1 q.2.1 q.2.2.1 q.2.2.2).odometerMiles :=
          computeSpeed_odometer_le milesPerPulse s q.1 q.2.1 q.2.2.1 q.2.2.2 hmpp
      _ ≤ (runSamples milesPerPulse
            (computeSpeed milesPerPulse s q.1 q.2.1 q.2.2.1 q.2.2.2) rest).odometerMiles :=
          ih _
      _ = (runSamples milesPerPulse s (q :: rest)).odometerMiles := rfl

/-- C4: the odometer accumulator is monotonically non-decreasing, both for a
single sample and over any sample sequence; the NVS persist happens exactly
when the since-last-persist accumulator has reached `ODO_PERSIST_MILES`; a
write does not change the odometer itself but resets the accumulator to
zero, so that (for a positive threshold) an immediately following persist
check never writes again. -/
theorem odometer_spec (milesPerPulse odoPersistMiles : ℚ) (s : SpeedState)
    (pulses lastPulseUs nowMs nowUs : Nat)
    (samples : List (Nat × Nat × Nat × Nat))
    (hmpp : 0 ≤ milesPerPulse) (hth : 0 < odoPersistMiles) :
    s.odometerMiles
      ≤ (computeSpeed milesPerPulse s pulses lastPulseUs nowMs nowUs).odometerMiles ∧
    s.odometerMiles ≤ (runSamples milesPerPulse s samples).odometerMiles ∧
    ((persistOdoIfNeeded odoPersistMiles s).2 = true ↔
      odoPersistMiles ≤ s.odometerSinceLastPersist) ∧
    (persistOdoIfNeeded odoPersistMiles s).1.odometerMiles = s.odometerMiles ∧
    ((persistOdoIfNeeded odoPersistMiles s).2 = true →
      (persistOdoIfNeeded odoPersistMiles s).1.odometerSinceLastPersist = 0) ∧
    ((persistOdoIfNeeded odoPersistMiles s).2 = true →
      (persistOdoIfNeeded odoPersistMiles
        (persistOdoIfNeeded odoPersistMiles s).1).2 = false) := by
  refine ⟨computeSpeed_odometer_le _ _ _ _ _ _ hmpp,
    runSamples_odometer_le _ _ _ hmpp, ?_, ?_, ?_, ?_⟩ <;>
    unfold persistOdoIfNeeded <;> split_ifs with h1 <;>
      simp_all <;> linarith

/-- Witness for C4 at a concrete input: with threshold `1` mile and `5/4`
miles accumulated, the persist fires, keeps the odometer at `100` miles and
resets the accumulator, and a second immediate check does not fire. -/
theorem odometer_spec_witness :
    (0 : ℚ) ≤ 1 ∧ (0 : ℚ) < 1 ∧
    (persistOdoIfNeeded 1 ⟨0, 0, 0, 100, 5/4⟩).2 = true ∧
    (persistOdoIfNeeded 1 ⟨0, 0, 0, 100, 5/4⟩).1.odometerMiles = 100 ∧
    (persistOdoIfNeeded 1 (persistOdoIfNeeded 1 ⟨0, 0, 0, 100, 5/4⟩).1).2 = false := by
  have h := odometer_spec 1 1 ⟨0, 0, 0, 100, 5/4⟩ 0 0 0 0 []
    (by norm_num) (by norm_num)
  have hfire : (persistOdoIfNeeded 1 ⟨0, 0, 0, 100, 5/4⟩).2 = true :=
    h.2.2.1.mpr (by norm_num)
  exact ⟨by norm_num, by norm_num, hfire, h.2.2.2.1, h.2.2.2.2.2 hfire⟩

/-! ## Gear estimation (src/esp32/src/body_controller/main.cpp, `estimateGear`) -/

/-- Exact rational value of the IEEE-754 double constant `M_PI` used by the
source's `double` arithmetic. -/
def M_PI : ℚ := 884279719003555 / 281474976710656

/-- Gear enumeration values (`can_ids.h`). -/
def GEAR_NEUTRAL : Nat := 0

/-- First gear value (`can_ids.h`). -/
def GEAR_1 : Nat := 1

/-- Second gear value (`can_ids.h`). -/
def GEAR_2 : Nat := 2

/-- Third gear value (`can_ids.h`). -/
def GEAR_3 : Nat := 3

/-- Fourth gear value (`can_ids.h`). -/
def GEAR_4 : Nat := 4

/-- Unknown-gear value (`can_ids.h`: `GEAR_UNKNOWN = 0xFF`). -/
def GEAR_UNKNOWN : Nat := 0xFF

/-- Modelled from the spec: the per-vehicle drivetrain constants
`TIRE_DIAMETER_IN`, `DIFF_RATIO`, `GEAR_RATIO_1` … `GEAR_RATIO_4` and
`GEAR_TOLERANCE` are defined in a configuration header that is not among
the sources here; the spec describes them as tire diameter,
final-drive ratio, the four known gear ratios, and a fixed relative
tolerance of about 15%.  `tireDiameterIn` stands for `TIRE_DIAMETER_IN`,
`finalDrive` for `DIFF_RATIO`, `gear1` … `gear4` for `GEAR_RATIO_1` …
`GEAR_RATIO_4` and `gearTol` for `GEAR_TOLERANCE`. -/
structure GearConfig where
  tireDiameterIn : ℚ
  finalDrive : ℚ
  gear1 : ℚ
  gear2 : ℚ
  gear3 : ℚ
  gear4 : ℚ
  gearTol : ℚ
deriving Repr, DecidableEq

/-- The ratio-comparison loop of `estimateGear` (`main.cpp`), unrolled over
the four configured gears: the first gear whose ratio is within the relative
tolerance of the observed ratio wins, otherwise the gear is unknown. -/
def gearFromRatio (c : GearConfig) (r : ℚ) : Nat :=
  if |r - c.gear1| / c.gear1 ≤ c.gearTol then GEAR_1
  else if |r - c.gear2| / c.gear2 ≤ c.gearTol then GEAR_2
  else if |r - c.gear3| / c.gear3 ≤ c.gearTol then GEAR_3
  else if |r - c.gear4| / c.gear4 ≤ c.gearTol then GEAR_4
  else GEAR_UNKNOWN

/-- The observed transmission ratio `|motorRPM| / driveshaftRPM` exactly as
`estimateGear` computes it from vehicle speed and motor RPM. -/
def observedRatio (c : GearConfig) (speedMph : ℚ) (motorRpm : ℤ) : ℚ :=
  |(motorRpm : ℚ)| / (speedMph * 63360 / (c.tireDiameterIn * M_PI * 60) * c.finalDrive)

/-- Embeds `estimateGear` (`main.cpp`, body controller): reverse forces
neutral, near-zero speed or motor RPM forces neutral, and otherwise the
observed ratio `|motorRPM| / driveshaftRPM` is compared against the four
configured gear ratios. -/
def estimateGear (c : GearConfig) (bodyFlags : Nat) (speedMph : ℚ)
    (motorRpm : ℤ) : Nat :=
  if bodyFlags &&& BODY_FLAG_REVERSE ≠ 0 then GEAR_NEUTRAL
  else if speedMph < 2 ∨ |motorRpm| < 100 then GEAR_NEUTRAL
  else
    let wheelCircIn := c.tireDiameterIn * M_PI
    let wheelRpm := speedMph * 63360 / (wheelCircIn * 60)
    let driveshaftRpm := wheelRpm * c.finalDrive
    if driveshaftRpm < 1 then GEAR_NEUTRAL
    else gearFromRatio c (|(motorRpm : ℚ)| / driveshaftRpm)

/-- C5: `estimateGear` reports neutral whenever the reverse flag is set, and
whenever speed or motor RPM is below the fixed thresholds (`speed < 2` mph
or `|motorRpm| < 100`); otherwise (under mild physical constraints on the
configured constants, which make the internal `driveshaftRpm < 1` guard
unreachable above 2 mph) it compares the observed ratio against the gears in
order and reports the first within the relative tolerance, or unknown
(`0xFF`) when none matches. -/
theorem estimateGear_spec (c : GearConfig) (flags : Nat) (speed : ℚ) (rpm : ℤ)
    (hD : 0 < c.tireDiameterIn) (hFD : 0 < c.finalDrive)
    (hgeom : c.tireDiameterIn * M_PI ≤ 2112 * c.finalDrive) :
    (flags &&& BODY_FLAG_REVERSE ≠ 0 →
      estimateGear c flags speed rpm = GEAR_NEUTRAL) ∧
    (speed < 2 ∨ |rpm| < 100 → estimateGear c flags speed rpm = GEAR_NEUTRAL) ∧
    (flags &&& BODY_FLAG_REVERSE = 0 → 2 ≤ speed → 100 ≤ |rpm| →
      estimateGear c flags speed rpm = gearFromRatio c (observedRatio c speed rpm)) ∧
    (∀ r : ℚ,
      (|r - c.gear1| / c.gear1 ≤ c.gearTol → gearFromRatio c r = GEAR_1) ∧
      (¬ |r - c.gear1| / c.gear1 ≤ c.gearTol →
        |r - c.gear2| / c.gear2 ≤ c.gearTol → gearFromRatio c r = GEAR_2) ∧
      (¬ |r - c.gear1| / c.gear1 ≤ c.gearTol →
        ¬ |r - c.gear2| / c.gear2 ≤ c.gearTol →
        |r - c.gear3| / c.gear3 ≤ c.gearTol → gearFromRatio c r = GEAR_3) ∧
      (¬ |r - c.gear1| / c.gear1 ≤ c.gearTol →
        ¬ |r - c.gear2| / c.gear2 ≤ c.gearTol →
        ¬ |r - c.gear3| / c.gear3 ≤ c.gearTol →
        |r - c.gear4| / c.gear4 ≤ c.gearTol → gearFromRatio c r = GEAR_4) ∧
      (¬ |r - c.gear1| / c.gear1 ≤ c.gearTol →
        ¬ |r - c.gear2| / c.gear2 ≤ c.gearTol →
        ¬ |r - c.gear3| / c.gear3 ≤ c.gearTol →
        ¬ |r - c.gear4| / c.gear4 ≤ c.gearTol →
        gearFromRatio c r = GEAR_UNKNOWN)) := by
  have hpi : (0 : ℚ) < M_PI := by norm_num [M_PI]
  refine ⟨?_, ?_, ?_, ?_⟩
  · intro hrev
    unfold estimateGear
    rw [if_pos hrev]
  · intro hlow
    simp only [estimateGear]
    split_ifs <;> first | rfl | tauto
  · intro hrev hsp hrpm
    have hcirc : (0 : ℚ) < c.tireDiameterIn * M_PI * 60 :=
      mul_pos (mul_pos hD hpi) (by norm_num)
    have hds : (1 : ℚ) ≤ speed * 63360 / (c.tireDiameterIn * M_PI * 60) * c.finalDrive := by
      rw [div_mul_eq_mul_div, le_div_iff hcirc, one_mul]
      nlinarith [mul_le_mul_of_nonneg_right hgeom (by norm_num : (0:ℚ) ≤ 60),
        mul_le_mul_of_nonneg_right hsp
          (mul_nonneg (by norm_num : (0:ℚ) ≤ 63360) hFD.le)]
    simp only [estimateGear, observedRatio]
    rw [if_neg (by simp [hrev]),
      if_neg (by push_neg; exact ⟨hsp, hrpm⟩),
      if_neg (not_lt.mpr hds)]
  · intro r
    refine ⟨?_, ?_, ?_, ?_, ?_⟩ <;> intros <;>
      unfold gearFromRatio <;> split_ifs <;> first | rfl | tauto

/-- Witness for C5 at a concrete configuration (24-inch tire, 4:1 final
drive, gear ratios 33/10, 21/10, 7/5 and 1, 15% tolerance): the reverse flag
(bit 4, value 16) forces neutral, low speed forces neutral, and a ratio
exactly on the first gear reports first gear. -/
theorem estimateGear_spec_witness :
    (0 : ℚ) < 24 ∧
    estimateGear ⟨24, 4, 33/10, 21/10, 7/5, 1, 3/20⟩ 16 30 3000 = GEAR_NEUTRAL ∧
    estimateGear ⟨24, 4, 33/10, 21/10, 7/5, 1, 3/20⟩ 0 1 3000 = GEAR_NEUTRAL ∧
    gearFromRatio ⟨24, 4, 33/10, 21/10, 7/5, 1, 3/20⟩ (33/10) = GEAR_1 := by
  have h := estimateGear_spec ⟨24, 4, 33/10, 21/10, 7/5, 1, 3/20⟩ 16 30 3000
    (by norm_num) (by norm_num) (by norm_num [M_PI])
  have h' := estimateGear_spec ⟨24, 4, 33/10, 21/10, 7/5, 1, 3/20⟩ 0 1 3000
    (by norm_num) (by norm_num) (by norm_num [M_PI])
  refine ⟨by norm_num, h.1 (by decide), h'.2.1 (Or.inl (by norm_num)), ?_⟩
  exact (h.2.2.2 (33/10)).1 (by norm_num)

/-! ## Leaf 0x1DB battery status decode
(src/firmware/lib/LeafCan/LeafCan.cpp, src/common/cpp/leaf_messages.h) -/

namespace Leaf1DB

/-- Battery voltage high byte offset (`leaf_messages.h`). -/
def VOLTAGE_BYTE_HI : Nat := 0

/-- Battery voltage low byte offset (`leaf_messages.h`). -/
def VOLTAGE_BYTE_LO : Nat := 1

/-- Battery voltage field width (`leaf_messages.h`). -/
def VOLTAGE_BITS : Nat := 10

/-- Battery voltage scale factor (`leaf_messages.h`: `0.5f`). -/
def VOLTAGE_FACTOR : ℚ := 1/2

/-- Battery current high byte offset (`leaf_messages.h`). -/
def CURRENT_BYTE_HI : Nat := 2

/-- Battery current low byte offset (`leaf_messages.h`). -/
def CURRENT_BYTE_LO : Nat := 3

/-- Battery current field width (`leaf_messages.h`: 11 bits, signed). -/
def CURRENT_BITS : Nat := 11

/-- Battery current scale factor (`leaf_messages.h`: `0.5f`). -/
def CURRENT_FACTOR : ℚ := 1/2

/-- SOC byte offset (`leaf_messages.h`). -/
def SOC_BYTE : Nat := 4

end Leaf1DB

/-- Decoded 0x1DB battery status (`LeafCan.h`: `BatteryStatus`). -/
structure BatteryStatus where
  voltageV : ℚ
  currentA : ℚ
  socPercent : Nat
deriving Repr, DecidableEq

/-- Reinterpretation of a 16-bit unsigned pattern as the C `int16_t` value:
the source's `(int16_t)currRaw` cast. -/
def int16OfNat (n : Nat) : ℤ :=
  let m := n % 65536
  if m < 32768 then (m : ℤ) else (m : ℤ) - 65536

/-- Embeds `LeafCan::decodeBatteryStatus` (`LeafCan.cpp`): extract the
big-endian voltage and current fields, shift away the unused low bits,
or in the high-bit mask `0xF800` when the current's sign bit is set, widen
to `int16_t` and scale by the declared factors.  `data` is the 8-byte
payload as a byte accessor. -/
def LeafCan.decodeBatteryStatus (data : Nat → Nat) : BatteryStatus :=
  let voltRaw := ((data Leaf1DB.VOLTAGE_BYTE_HI <<< 8) |||
    data Leaf1DB.VOLTAGE_BYTE_LO) >>> (16 - Leaf1DB.VOLTAGE_BITS)
  let currRaw0 := ((data Leaf1DB.CURRENT_BYTE_HI <<< 8) |||
    data Leaf1DB.CURRENT_BYTE_LO) >>> (16 - Leaf1DB.CURRENT_BITS)
  let currRaw := if currRaw0 &&& (1 <<< (Leaf1DB.CURRENT_BITS - 1)) ≠ 0 then
    currRaw0 ||| 0xF800 else currRaw0
  { voltageV := (voltRaw : ℚ) * Leaf1DB.VOLTAGE_FACTOR
    currentA := (int16OfNat currRaw : ℚ) * Leaf1DB.CURRENT_FACTOR
    socPercent := data Leaf1DB.SOC_BYTE }

/-- Payload whose 11-bit current field is the pattern with only the sign bit
set (bytes 2–3 are `0x80 0x00`, so the field is `0x400`). -/
def currentSignOnlyPayload : Nat → Nat := fun i => if i = 2 then 0x80 else 0

/-- Payload whose 11-bit current field is the all-ones pattern (bytes 2–3
are `0xFF 0xE0`, so the field is `0x7FF`). -/
def currentAllOnesPayload : Nat → Nat :=
  fun i => if i = 2 then 0xFF else if i = 3 then 0xE0 else 0

/-- An 11-bit value has its bit 10 set exactly when it is at least `1024`. -/
theorem land_bit10_iff (n : Nat) (h : n < 2048) : n &&& 1024 ≠ 0 ↔ 1024 ≤ n := by
  have h1024 : (1024:ℕ) = 2^10 := by norm_num
  rw [h1024, Nat.and_two_pow]
  constructor
  · intro hne
    rcases hb : n.testBit 10 with _ | _
    · rw [hb] at hne
      simp at hne
    · have := Nat.testBit_implies_ge hb
      omega
  · intro hge
    have hb : n.testBit 10 = true := by
      rw [Nat.testBit_to_div_mod]
      simp only [decide_eq_true_eq]
      omega
    rw [hb]
    simp

/-- Oring `0xF800` into an 11-bit value is plain addition: the high mask and
the 11-bit field occupy disjoint bit ranges. -/
theorem lor_f800_eq_add (n : Nat) (h : n < 2048) : n ||| 63488 = n + 63488 := by
  have h2047 : (2:ℕ)^11 - 1 = 2047 := by norm_num
  have h2048 : (2:ℕ)^11 = 2048 := by norm_num
  have e1 : (n ||| 63488) % 2048 = n := by
    have hx := Nat.and_pow_two_sub_one_eq_mod (n ||| 63488) 11
    rw [h2047, h2048] at hx
    have hn : n &&& 2047 = n := by
      have hy := Nat.and_pow_two_sub_one_eq_mod n 11
      rw [h2047, h2048] at hy
      rw [hy, Nat.mod_eq_of_lt h]
    rw [← hx, Nat.and_distrib_right, hn,
      (by decide : (63488 : ℕ) &&& 2047 = 0), Nat.or_zero]
  have e2 : (n ||| 63488) >>> 11 = 31 := by
    apply Nat.eq_of_testBit_eq
    intro j
    rw [Nat.testBit_shiftRight, Nat.testBit_or]
    have hn : n.testBit (11 + j) = false :=
      Nat.testBit_lt_two_pow
        (lt_of_lt_of_le h
          (by rw [← h2048]; exact Nat.pow_le_pow_right (by norm_num) (by omega)))
    rw [hn, Bool.false_or]
    rw [(by decide : (63488 : Nat) = 31 <<< 11), Nat.testBit_shiftLeft]
    simp
  have e3 : (n ||| 63488) / 2048 = 31 := by
    rw [← e2, Nat.shiftRight_eq_div_pow, h2048]
  have := Nat.div_add_mod (n ||| 63488) 2048
  omega

/-- The 11-bit current field extracted from two payload bytes fits in 11
bits. -/
theorem currRaw_lt (data : Nat → Nat) (h2 : data 2 < 256) (h3 : data 3 < 256) :
    ((data 2 <<< 8) ||| data 3) >>> 5 < 2048 := by
  have hx : (data 2 <<< 8) ||| data 3 < 2 ^ 16 := by
    apply Nat.or_lt_two_pow
    · have : data 2 <<< 8 = data 2 * 256 := by simp [Nat.shiftLeft_eq]
      omega
    · omega
  rw [Nat.shiftRight_eq_div_pow]
  have : (data 2 <<< 8) ||| data 3 < 65536 := by omega
  omega

/-- With the sign bit of the 11-bit current field set, `decodeBatteryStatus`
produces the sign-extended value `(raw - 2048) * 0.5` A. -/
theorem decodeBatteryStatus_current_signed (data : Nat → Nat)
    (h2 : data 2 < 256) (h3 : data 3 < 256)
    (hsign : ((data 2 <<< 8) ||| data 3) >>> 5 &&& 1024 ≠ 0) :
    (LeafCan.decodeBatteryStatus data).currentA =
      ((((data 2 <<< 8) ||| data 3) >>> 5 : ℚ) - 2048) * (1/2) := by
  have hraw := currRaw_lt data h2 h3
  have hge : 1024 ≤ ((data 2 <<< 8) ||| data 3) >>> 5 :=
    (land_bit10_iff _ hraw).mp hsign
  simp only [LeafCan.decodeBatteryStatus, Leaf1DB.CURRENT_BYTE_HI,
    Leaf1DB.CURRENT_BYTE_LO, Leaf1DB.CURRENT_BITS, Leaf1DB.CURRENT_FACTOR]
  rw [if_pos (by simpa using hsign)]
  rw [lor_f800_eq_add _ hraw]
  have hint : int16OfNat (((data 2 <<< 8) ||| data 3) >>> 5 + 63488)
      = (((data 2 <<< 8) ||| data 3) >>> 5 : ℤ) - 2048 := by
    unfold int16OfNat
    rw [Nat.mod_eq_of_lt (by omega), if_neg (by push_cast; omega)]
    push_cast
    ring
  rw [hint]
  push_cast
  ring

/-- With the sign bit of the 11-bit current field clear,
`decodeBatteryStatus` produces `raw * 0.5` A. -/
theorem decodeBatteryStatus_current_unsigned (data : Nat → Nat)
    (h2 : data 2 < 256) (h3 : data 3 < 256)
    (hsign : ((data 2 <<< 8) ||| data 3) >>> 5 &&& 1024 = 0) :
    (LeafCan.decodeBatteryStatus data).currentA =
      ((((data 2 <<< 8) ||| data 3) >>> 5 : ℚ)) * (1/2) := by
  have hraw := currRaw_lt data h2 h3
  simp only [LeafCan.decodeBatteryStatus, Leaf1DB.CURRENT_BYTE_HI,
    Leaf1DB.CURRENT_BYTE_LO, Leaf1DB.CURRENT_BITS, Leaf1DB.CURRENT_FACTOR]
  rw [if_neg (by simpa using hsign)]
  have hint : int16OfNat (((data 2 <<< 8) ||| data 3) >>> 5)
      = (((data 2 <<< 8) ||| data 3) >>> 5 : ℤ) := by
    unfold int16OfNat
    rw [Nat.mod_eq_of_lt (by omega), if_pos (by push_cast; omega)]
  rw [hint]
  push_cast
  ring

/-- C6: `decodeBatteryStatus` extracts the 11-bit big-endian current field
from bytes 2-3 by shifting away the 5 unused low bits; whenever the field's
sign bit (bit 10) is set, the decode ors in `0xF800` and widens to a signed
16-bit value, so the decoded current is `(raw - 2048) * 0.5` A (and with the
sign bit clear it is `raw * 0.5` A); in particular the pattern with only the
sign bit set decodes to `-1024 * 0.5` A and the all-ones pattern to
`-1 * 0.5` A, the two signed extremes consistent with the declared
factor. -/
theorem decodeBatteryStatus_current_spec (data : Nat → Nat)
    (h2 : data 2 < 256) (h3 : data 3 < 256) :
    (((data 2 <<< 8) ||| data 3) >>> 5 &&& 1024 ≠ 0 →
      (LeafCan.decodeBatteryStatus data).currentA =
        ((((data 2 <<< 8) ||| data 3) >>> 5 : ℚ) - 2048) * (1/2)) ∧
    (((data 2 <<< 8) ||| data 3) >>> 5 &&& 1024 = 0 →
      (LeafCan.decodeBatteryStatus data).currentA =
        ((((data 2 <<< 8) ||| data 3) >>> 5 : ℚ)) * (1/2)) ∧
    (LeafCan.decodeBatteryStatus currentSignOnlyPayload).currentA =
      (-1024 : ℚ) * (1/2) ∧
    (LeafCan.decodeBatteryStatus currentAllOnesPayload).currentA =
      (-1 : ℚ) * (1/2) := by
  refine ⟨decodeBatteryStatus_current_signed data h2 h3,
    decodeBatteryStatus_current_unsigned data h2 h3, ?_, ?_⟩
  · have h := decodeBatteryStatus_current_signed currentSignOnlyPayload
      (by decide) (by decide) (by decide)
    rw [h,
      (by decide : ((currentSignOnlyPayload 2 <<< 8) ||| currentSignOnlyPayload 3) >>> 5 = 1024)]
    norm_num
  · have h := decodeBatteryStatus_current_signed currentAllOnesPayload
      (by decide) (by decide) (by decide)
    rw [h,
      (by decide : ((currentAllOnesPayload 2 <<< 8) ||| currentAllOnesPayload 3) >>> 5 = 2047)]
    norm_num

/-- Witness for C6 at the two extreme payloads: the sign-bit-only pattern
decodes to `-512` A and the all-ones pattern to `-1/2` A. -/
theorem decodeBatteryStatus_current_spec_witness :
    currentSignOnlyPayload 2 < 256 ∧
    (LeafCan.decodeBatteryStatus currentSignOnlyPayload).currentA = -512 ∧
    (LeafCan.decodeBatteryStatus currentAllOnesPayload).currentA = -(1/2) := by
  have h := decodeBatteryStatus_current_spec currentSignOnlyPayload
    (by decide) (by decide)
  refine ⟨by decide, ?_, ?_⟩
  · rw [h.2.2.1]
    norm_num
  · rw [h.2.2.2]
    norm_num

/-! ## Stepper wheel (StepperWheel.cpp) -/

/-- Total step count of the 28BYJ-48 stepper
(`StepperWheel.h`: `STEPS_PER_REVOLUTION = 2048`). -/
def STEPS_PER_REVOLUTION : ℤ := 2048

/-- Embeds `StepperWheel::shortestPath` (`StepperWheel.cpp`).  The source
computes `(to - from + STEPS_PER_REVOLUTION) % STEPS_PER_REVOLUTION` with
C++ `%` (truncating remainder, `Int.tmod`) and subtracts a full revolution
when the result exceeds half a revolution. -/
def StepperWheel.shortestPath (fromPos toPos : ℤ) : ℤ :=
  let diff := Int.tmod (toPos - fromPos + STEPS_PER_REVOLUTION) STEPS_PER_REVOLUTION
  if diff > STEPS_PER_REVOLUTION / 2 then diff - STEPS_PER_REVOLUTION else diff

/-- Embeds the shortest-path wrap-around block of `StepperWheel::moveToMPH`
(`StepperWheel.cpp`): the eased-transition endpoint `targetPosF_` is shifted
by a full revolution when it lies more than half a revolution from
`startPosF_`.  Positions are the source's floats, modelled over `ℚ`. -/
def StepperWheel.wrapTargetF (startPosF targetPosF : ℚ) : ℚ :=
  if |targetPosF - startPosF| > (2048 : ℚ) / 2 then
    (if targetPosF > startPosF then targetPosF - 2048 else targetPosF + 2048)
  else targetPosF

/-- C8: for positions in `[0, 2048)`, `shortestPath` returns a signed
displacement of magnitude at most half a revolution that reaches the target
modulo 2048; from position 0 a target at 2047 yields a move of `-1`, not
`+2047`; and the wrap applied by `moveToMPH` to the eased-transition
endpoints likewise moves the endpoint by a whole revolution so that the
transition distance is at most half a revolution. -/
theorem shortestPath_spec (f t : ℤ) (sF tF : ℚ)
    (hf0 : 0 ≤ f) (hf : f < 2048) (ht0 : 0 ≤ t) (ht : t < 2048)
    (hsF0 : 0 ≤ sF) (hsF : sF < 2048) (htF0 : 0 ≤ tF) (htF : tF < 2048) :
    (StepperWheel.shortestPath f t).natAbs ≤ 1024 ∧
    (∃ k : ℤ, StepperWheel.shortestPath f t = t - f + 2048 * k) ∧
    StepperWheel.shortestPath 0 2047 = -1 ∧
    |StepperWheel.wrapTargetF sF tF - sF| ≤ 1024 ∧
    (∃ k : ℤ, StepperWheel.wrapTargetF sF tF = tF + 2048 * k) := by
  have hmod : Int.tmod (t - f + 2048) 2048 = (t - f + 2048) % 2048 := by
    rw [Int.tmod_eq_emod] <;> omega
  refine ⟨?_, ?_, ?_, ?_, ?_⟩
  · simp only [StepperWheel.shortestPath, STEPS_PER_REVOLUTION]
    rw [hmod]
    split_ifs <;> omega
  · simp only [StepperWheel.shortestPath, STEPS_PER_REVOLUTION]
    rw [hmod]
    split_ifs
    · rcases lt_or_le t f with hlt | hle
      · exact ⟨0, by omega⟩
      · exact ⟨-1, by omega⟩
    · rcases lt_or_le t f with hlt | hle
      · exact ⟨1, by omega⟩
      · exact ⟨0, by omega⟩
  · decide
  · unfold StepperWheel.wrapTargetF
    split_ifs with h1 h2
    · have habs : tF - sF > 1024 := by
        rw [abs_of_pos (by linarith)] at h1
        linarith
      rw [abs_le]
      constructor <;> linarith
    · push_neg at h2
      have habs : sF - tF > 1024 := by
        rw [abs_of_nonpos (by linarith)] at h1
        linarith
      rw [abs_le]
      constructor <;> linarith
    · push_neg at h1
      calc |tF - sF| ≤ (2048 : ℚ) / 2 := h1
        _ ≤ 1024 := by norm_num
  · unfold StepperWheel.wrapTargetF
    split_ifs
    · exact ⟨-1, by ring⟩
    · exact ⟨1, by ring⟩
    · exact ⟨0, by ring⟩

/-- Witness for C8 at concrete inputs: from step 0 to step 2047 the wheel
moves by one step backwards, and the float wrap moves the endpoint 2047 to
`-1`, one step below the start 0. -/
theorem shortestPath_spec_witness :
    (0 : ℤ) ≤ 0 ∧ (2047 : ℤ) < 2048 ∧
    StepperWheel.shortestPath 0 2047 = -1 ∧
    |StepperWheel.wrapTargetF 0 2047 - 0| ≤ 1024 := by
  have h := shortestPath_spec 0 2047 0 2047
    (by norm_num) (by norm_num) (by norm_num) (by norm_num)
    (by norm_num) (by norm_num) (by norm_num) (by norm_num)
  exact ⟨by norm_num, by norm_num, h.2.2.1, h.2.2.2.1⟩

/-! ## Servo gauge time-constant smoother
(src/esp32/lib/ServoGauge/ServoGauge.h, `ServoGauge::update`) -/

/-- State of the `ServoGauge` smoother (`ServoGauge.h`): the integer target
and current angles, the time constant `smoothingTau_`, the float smoothed
angle, the previous update's `millis()` stamp and the init flag.  The
value-to-angle mapping fields (`minVal_`, `maxVal_`), which the smoother
does not read, are omitted.  The source's `float` state is modelled over
`ℝ` because the control law is built on `expf`. -/
structure ServoGaugeState where
  targetAngle : ℤ
  currentAngle : ℤ
  smoothingTau : ℝ
  smoothedAngle : ℝ
  lastUpdateMs : Nat
  initialized : Bool

/-- C-style cast of a real to `int`: truncation toward zero. -/
noncomputable def truncToInt (x : ℝ) : ℤ := if 0 ≤ x then ⌊x⌋ else ⌈x⌉

/-- Embeds `ServoGauge::update` (`ServoGauge.h`, esp32 library): elapsed
time since the last update in seconds, clamped to `0.5` s, gives
`alpha = 1 - exp (-dt / tau)`, and the smoothed angle moves a fraction
`alpha` of the remaining distance toward the target; the written angle is
the rounded and constrained smoothed value. -/
noncomputable def ServoGauge.update (st : ServoGaugeState) (now : Nat) :
    ServoGaugeState :=
  if !st.initialized then st
  else
    let dt0 : ℝ := ((u32sub now st.lastUpdateMs : Nat) : ℝ) / 1000
    let dt := if dt0 > 0.5 then (0.5 : ℝ) else dt0
    let alpha := 1 - Real.exp (-dt / st.smoothingTau)
    let smoothed := st.smoothedAngle + alpha * ((st.targetAngle : ℝ) - st.smoothedAngle)
    let cur0 := truncToInt (smoothed + 0.5)
    let cur := if cur0 < 0 then 0 else if cur0 > 180 then 180 else cur0
    { targetAngle := st.targetAngle
      currentAngle := cur
      smoothingTau := st.smoothingTau
      smoothedAngle := smoothed
      lastUpdateMs := now
      initialized := st.initialized }

/-- Iterates `ServoGauge::update` at a fixed timestep of `dtMs`
milliseconds, the call at step `k` happening at time
`lastUpdateMs + k * dtMs`. -/
noncomputable def ServoGauge.runUpdates (st : ServoGaugeState) (dtMs : Nat) :
    Nat → ServoGaugeState
  | 0 => st
  | n + 1 =>
    ServoGauge.update (ServoGauge.runUpdates st dtMs n)
      (st.lastUpdateMs + (n + 1) * dtMs)

/-- Unsigned wraparound subtraction of a timestamp from a later one within
the same 32-bit epoch recovers the elapsed time. -/
theorem u32sub_add_self (a d : Nat) (hd : d < 2 ^ 32) : u32sub (a + d) a = d := by
  unfold u32sub
  omega

/-- Closed form of the iterated smoother: after `n` fixed steps of `dtMs`
milliseconds the remaining distance to the target is the initial distance
scaled by `exp (-(total elapsed seconds) / tau)`; the target, time constant
and init flag are untouched and the timestamp advances by `n * dtMs`. -/
theorem runUpdates_closed_form (st : ServoGaugeState) (dtMs : Nat)
    (hinit : st.initialized = true) (hdt : dtMs ≤ 500) (n : Nat) :
    (ServoGauge.runUpdates st dtMs n).initialized = true ∧
    (ServoGauge.runUpdates st dtMs n).smoothingTau = st.smoothingTau ∧
    (ServoGauge.runUpdates st dtMs n).targetAngle = st.targetAngle ∧
    (ServoGauge.runUpdates st dtMs n).lastUpdateMs = st.lastUpdateMs + n * dtMs ∧
    (st.targetAngle : ℝ) - (ServoGauge.runUpdates st dtMs n).smoothedAngle
      = Real.exp (-(((n * dtMs : Nat) : ℝ) / 1000) / st.smoothingTau) *
        ((st.targetAngle : ℝ) - st.smoothedAngle) := by
  induction n with
  | zero =>
    refine ⟨hinit, rfl, rfl, by simp [ServoGauge.runUpdates], ?_⟩
    simp [ServoGauge.runUpdates]
  | succ n ih =>
    obtain ⟨ih1, ih2, ih3, ih4, ih5⟩ := ih
    have hstep : ServoGauge.runUpdates st dtMs (n + 1)
        = ServoGauge.update (ServoGauge.runUpdates st dtMs n)
            (st.lastUpdateMs + (n + 1) * dtMs) := rfl
    have hsub : u32sub (st.lastUpdateMs + (n + 1) * dtMs)
        (ServoGauge.runUpdates st dtMs n).lastUpdateMs = dtMs := by
      rw [ih4]
      have harr : st.lastUpdateMs + (n + 1) * dtMs
          = (st.lastUpdateMs + n * dtMs) + dtMs := by ring
      rw [harr]
      exact u32sub_add_self _ _ (by omega)
    have hclamp : ¬ (((dtMs : Nat) : ℝ) / 1000 > 0.5) := by
      push_neg
      have hcast : (dtMs : ℝ) ≤ 500 := by exact_mod_cast hdt
      rw [div_le_iff (by norm_num : (0:ℝ) < 1000)]
      linarith
    rw [hstep]
    unfold ServoGauge.update
    rw [if_neg (by simp [ih1])]
    simp only [hsub, ih2, ih3]
    rw [if_neg hclamp]
    refine ⟨ih1, trivial, trivial, trivial, ?_⟩
    have hexp : (st.targetAngle : ℝ) -
        ((ServoGauge.runUpdates st dtMs n).smoothedAngle +
          (1 - Real.exp (-(((dtMs : Nat) : ℝ) / 1000) / st.smoothingTau)) *
            ((st.targetAngle : ℝ) - (ServoGauge.runUpdates st dtMs n).smoothedAngle))
        = Real.exp (-(((dtMs : Nat) : ℝ) / 1000) / st.smoothingTau) *
          ((st.targetAngle : ℝ) - (ServoGauge.runUpdates st dtMs n).smoothedAngle) := by
      ring
    rw [hexp, ih5, ← mul_assoc, ← Real.exp_add]
    congr 1
    push_cast
    ring

/-- C7: iterating the time-based smoother at a fixed timestep (at most the
0.5 s clamp) leaves the settled fraction a function of total elapsed time
and `tau` alone — two schedules with the same total elapsed time land on
exactly the same smoothed angle — and once the total elapsed time reaches
three time constants, the remaining distance to the target is at most 5% of
the initial distance. -/
theorem servoGauge_smoother_spec (st : ServoGaugeState) (dt1 dt2 n1 n2 : Nat)
    (hinit : st.initialized = true) (htau : 0 < st.smoothingTau)
    (hdt1 : dt1 ≤ 500) (hdt2 : dt2 ≤ 500) :
    (n1 * dt1 = n2 * dt2 →
      (ServoGauge.runUpdates st dt1 n1).smoothedAngle
        = (ServoGauge.runUpdates st dt2 n2).smoothedAngle) ∧
    (3 * st.smoothingTau ≤ ((n1 * dt1 : Nat) : ℝ) / 1000 →
      |(st.targetAngle : ℝ) - (ServoGauge.runUpdates st dt1 n1).smoothedAngle|
        ≤ (5 / 100) * |(st.targetAngle : ℝ) - st.smoothedAngle|) := by
  have h1 := runUpdates_closed_form st dt1 hinit hdt1 n1
  have h2 := runUpdates_closed_form st dt2 hinit hdt2 n2
  constructor
  · intro heq
    have e1 := h1.2.2.2.2
    have e2 := h2.2.2.2.2
    rw [heq] at e1
    linarith [e1, e2]
  · intro htime
    have e1 := h1.2.2.2.2
    have habs : |(st.targetAngle : ℝ) - (ServoGauge.runUpdates st dt1 n1).smoothedAngle|
        = Real.exp (-(((n1 * dt1 : Nat) : ℝ) / 1000) / st.smoothingTau) *
          |(st.targetAngle : ℝ) - st.smoothedAngle| := by
      rw [e1, abs_mul, abs_of_pos (Real.exp_pos _)]
    rw [habs]
    have hexp20 : (20 : ℝ) ≤ Real.exp 3 := by
      have he : Real.exp 3 = Real.exp 1 * Real.exp 1 * Real.exp 1 := by
        rw [← Real.exp_add, ← Real.exp_add]
        norm_num
      nlinarith [Real.exp_one_gt_d9]
    have hle : Real.exp (-(((n1 * dt1 : Nat) : ℝ) / 1000) / st.smoothingTau)
        ≤ Real.exp (-3) := by
      apply Real.exp_le_exp.mpr
      have h3 : (3 : ℝ) ≤ (((n1 * dt1 : Nat) : ℝ) / 1000) / st.smoothingTau := by
        rw [le_div_iff htau]
        linarith
      rw [neg_div]
      linarith
    have hbound : Real.exp (-3) ≤ 5 / 100 := by
      rw [Real.exp_neg]
      have h20 : (Real.exp 3)⁻¹ ≤ (20 : ℝ)⁻¹ :=
        inv_le_inv_of_le (by norm_num) hexp20
      calc (Real.exp 3)⁻¹ ≤ (20 : ℝ)⁻¹ := h20
        _ ≤ 5 / 100 := by norm_num
    have hnn : (0 : ℝ) ≤ |(st.targetAngle : ℝ) - st.smoothedAngle| := abs_nonneg _
    exact mul_le_mul_of_nonneg_right (le_trans hle hbound) hnn

/-- Witness for C7 at a concrete state (target 180, start 0, `tau = 1` s):
35 updates of 100 ms and 7 updates of 500 ms, both 3.5 s in total, give the
same smoothed angle, and after 3.5 s ≥ 3 τ the needle is within 5% of the
step. -/
theorem servoGauge_smoother_spec_witness :
    (0 : ℝ) < 1 ∧ 35 * 100 = 7 * 500 ∧
    (ServoGauge.runUpdates ⟨180, 0, 1, 0, 0, true⟩ 100 35).smoothedAngle
      = (ServoGauge.runUpdates ⟨180, 0, 1, 0, 0, true⟩ 500 7).smoothedAngle ∧
    |((180 : ℤ) : ℝ) - (ServoGauge.runUpdates ⟨180, 0, 1, 0, 0, true⟩ 100 35).smoothedAngle|
      ≤ (5 / 100) * |((180 : ℤ) : ℝ) - 0| := by
  have h := servoGauge_smoother_spec ⟨180, 0, 1, 0, 0, true⟩ 100 500 35 7
    rfl (by norm_num) (by norm_num) (by norm_num)
  refine ⟨by norm_num, by norm_num, h.1 (by norm_num), ?_⟩
  have h2 := h.2 (by push_cast; norm_num)
  simpa using h2

/-! ## Structured log channel (src/firmware/lib/CanLog/CanLog.cpp) -/

/-- Log frame length (`can_ids.h`: `LOG_DLC = 8`). -/
def LOG_DLC : Nat := 8

/-- Log text frame length (`can_ids.h`: `LOG_TEXT_DLC = 8`). -/
def LOG_TEXT_DLC : Nat := 8

/-- Maximum number of text continuation frames
(`can_ids.h`: `LOG_TEXT_MAX_FRAMES = 7`). -/
def LOG_TEXT_MAX_FRAMES : Nat := 7

/-- ASCII characters per text frame
(`can_ids.h`: `LOG_TEXT_CHARS_PER_FRAME = 7`). -/
def LOG_TEXT_CHARS_PER_FRAME : Nat := 7

/-- Embeds `packRoleLevel` (`log_events.h`): role in the high nibble, level
in the low nibble. -/
def packRoleLevel (role level : Nat) : Nat := (role <<< 4) ||| (level &&& 0x0F)

/-- Configuration of a `CanLog` channel (`CanLog.h`): the module role and
the minimum level; both roles and levels are their numeric enum values. -/
structure CanLogState where
  role : Nat
  minLevel : Nat
deriving Repr, DecidableEq

/-- A line emitted by the local serial fallback sink
(`CanLog::serialFallback_`). -/
structure SerialLine where
  role : Nat
  level : Nat
  event : Nat
  context : Nat
  text : List Nat
deriving Repr, DecidableEq

/-- Embeds `CanLog::canAvailable_` (`CanLog.cpp`): false when the `CanBus`
pointer is null (`hasBus = false`) or the bus is off — the installed state
of the driver is not consulted. -/
def CanLog.canAvailable (hasBus : Bool) (bus : CanBusState) : Bool :=
  if !hasBus then false
  else if bus.busOff then false
  else true

/-- Embeds `CanLog::sendLogFrame_` (`CanLog.cpp`): the 8-byte LOG frame —
role:level nibble pair, event code, big-endian context, reserved byte and
the fragment count — offered to `safeTransmit`; the result is the list of
frames that reached the wire. -/
def CanLog.sendLogFrame (bus : CanBusState) (hwAccept : Bool)
    (role level event context textFrames : Nat) : List CanFrame :=
  let payload : List Nat :=
    [packRoleLevel role level, event,
     (context >>> 24) &&& 0xFF, (context >>> 16) &&& 0xFF,
     (context >>> 8) &&& 0xFF, context &&& 0xFF,
     0x00, textFrames]
  (CanBus.safeTransmit bus hwAccept CAN_ID_LOG payload).frames

/-- Payload of text continuation frame `i` (`CanLog::sendTextFrames_`):
fragment index in byte 0, then up to 7 text bytes, null-padded to 8. -/
def textFramePayload (text : List Nat) (i : Nat) : List Nat :=
  let chunk := (text.drop (i * LOG_TEXT_CHARS_PER_FRAME)).take LOG_TEXT_CHARS_PER_FRAME
  i :: (chunk ++ List.replicate (LOG_TEXT_CHARS_PER_FRAME - chunk.length) 0)

/-- Embeds `CanLog::sendTextFrames_` (`CanLog.cpp`): one continuation frame
per fragment index `0 … frameCount - 1`. -/
def CanLog.sendTextFrames (bus : CanBusState) (hwAccept : Bool)
    (text : List Nat) (frameCount : Nat) : List CanFrame :=
  (List.range frameCount).flatMap
    (fun i => (CanBus.safeTransmit bus hwAccept CAN_ID_LOG_TEXT
      (textFramePayload text i)).frames)

/-- The fragment count `CanLog::log` computes: zero for a null or empty
string, otherwise `ceil (strlen / 7)` capped at 7.  A NUL-terminated C
string is modelled as its byte list; `[]` stands for both `nullptr` and the
empty string, which the source treats alike. -/
def CanLog.textFrameCount (text : List Nat) : Nat :=
  if text = [] then 0
  else
    let tf := (text.length + LOG_TEXT_CHARS_PER_FRAME - 1) / LOG_TEXT_CHARS_PER_FRAME
    if tf > LOG_TEXT_MAX_FRAMES then LOG_TEXT_MAX_FRAMES else tf

/-- Embeds `CanLog::log` (`CanLog.cpp`): below the minimum level nothing
happens; otherwise, when `canAvailable_` holds, the LOG frame and any text
continuation frames are offered to the bus (their transmit results
ignored), and when it does not, one line goes to the serial fallback sink.
Returns the frames that reached the wire and the serial lines printed. -/
def CanLog.log (hasBus : Bool) (bus : CanBusState) (hwAccept : Bool)
    (st : CanLogState) (level event context : Nat) (text : List Nat) :
    List CanFrame × List SerialLine :=
  if level < st.minLevel then ([], [])
  else
    let textFrames := CanLog.textFrameCount text
    if CanLog.canAvailable hasBus bus then
      (CanLog.sendLogFrame bus hwAccept st.role level event context textFrames ++
        (if textFrames > 0 then
          CanLog.sendTextFrames bus hwAccept text textFrames else []),
       [])
    else
      ([], [⟨st.role, level, event, context, text⟩])

/-- C9 (code bug): a `log` call at or above the minimum level can be lost
with neither a bus frame nor a serial line.  `canAvailable_` checks only the
null pointer and the bus-off flag, not whether the TWAI driver is installed;
with the driver not yet installed (exactly the state in which every `main()`
logs `BOOT_START`, before `canBus.init()`), the CAN path is taken,
`CanBus::transmit` returns `false`, the return value is ignored and no
fallback runs — the claim's "one of the two always happens" fails.  With the
bus marked off instead, the same call does reach the serial sink, and a
below-minimum call produces no output, as claimed. -/
theorem canLog_boot_log_silently_lost :
    ¬ ((4 : Nat) < 0) ∧
    CanLog.log true ⟨false, false⟩ true ⟨4, 0⟩ 4 0 0 [] = ([], []) ∧
    CanLog.log true ⟨false, true⟩ true ⟨4, 0⟩ 4 0 0 [] =
      ([], [⟨4, 4, 0, 0, []⟩]) ∧
    CanLog.log true ⟨true, false⟩ true ⟨4, 2⟩ 1 0 0 [] = ([], []) := by
  refine ⟨by decide, by decide, by decide, by decide⟩

/-- Concatenating the seven 7-byte chunks the text frames carry yields
exactly the first 49 bytes of the text. -/
theorem seven_chunks_eq_take_49 (t : List Nat) :
    (List.range 7).flatMap (fun i => (t.drop (i * 7)).take 7) = t.take 49 := by
  rw [show (49:ℕ) = 7 + (7 + (7 + (7 + (7 + (7 + 7))))) from rfl]
  rw [List.take_add, List.take_add, List.take_add, List.take_add, List.take_add,
    List.take_add]
  simp [List.range_succ, List.drop_drop]

/-- Sending one frame per fragment index is mapping the frame constructor
over the indices. -/
theorem flatMap_range7_singleton {α : Type} (f : Nat → α) :
    ((List.range 7).flatMap fun i => [f i]) = (List.range 7).map f := rfl

/-- C10: for text longer than 49 characters, `CanLog::log` sends the LOG
frame with fragment-count byte 7 followed by exactly 7 LOG_TEXT frames with
fragment indices 0 through 6, each carrying a full 7-character chunk, and
those chunks together are exactly the first 49 characters — everything past
character 49 is silently dropped. -/
theorem canLog_text_truncation_spec (bus : CanBusState) (st : CanLogState)
    (level event context : Nat) (text : List Nat)
    (hinst : bus.installed = true) (hboff : bus.busOff = false)
    (hlev : ¬ level < st.minLevel) (hlen : 49 < text.length) :
    CanLog.textFrameCount text = 7 ∧
    (CanLog.log true bus true st level event context text).1
      = ⟨CAN_ID_LOG, [packRoleLevel st.role level, event,
          (context >>> 24) &&& 0xFF, (context >>> 16) &&& 0xFF,
          (context >>> 8) &&& 0xFF, context &&& 0xFF, 0x00, 7]⟩ ::
        (List.range 7).map
          (fun i => ⟨CAN_ID_LOG_TEXT, i :: (text.drop (i * 7)).take 7⟩) ∧
    (List.range 7).flatMap (fun i => (text.drop (i * 7)).take 7)
      = text.take 49 := by
  have hcount : CanLog.textFrameCount text = 7 := by
    unfold CanLog.textFrameCount LOG_TEXT_CHARS_PER_FRAME LOG_TEXT_MAX_FRAMES
    rw [if_neg (by intro h; rw [h] at hlen; simp at hlen)]
    have hgt : (text.length + 7 - 1) / 7 > 7 := by omega
    simp [hgt]
    omega
  have hpayload : ∀ i, i < 7 →
      textFramePayload text i = i :: (text.drop (i * 7)).take 7 := by
    intro i hi
    unfold textFramePayload LOG_TEXT_CHARS_PER_FRAME
    have hchunk : ((text.drop (i * 7)).take 7).length = 7 := by
      simp [List.length_take, List.length_drop]
      omega
    simp [hchunk]
  refine ⟨hcount, ?_, seven_chunks_eq_take_49 text⟩
  simp only [CanLog.log, if_neg hlev, hcount]
  rw [if_pos (by simp [CanLog.canAvailable, hboff])]
  rw [if_pos (by norm_num)]
  simp only [CanLog.sendLogFrame, CanLog.sendTextFrames, CanBus.safeTransmit,
    CanBus.transmit, CAN_ID_LOG, CAN_ID_LOG_TEXT, CAN_CUSTOM_ID_MIN,
    CAN_CUSTOM_ID_MAX, hinst, hboff]
  norm_num
  rw [flatMap_range7_singleton]
  apply List.map_congr_left
  intro i hi
  rw [hpayload i (List.mem_range.mp hi)]

/-- Witness for C10 on a concrete 50-character text: the fragment count is
7, the log call puts 8 frames on the wire (one LOG, seven LOG_TEXT), and
the carried chunks are the first 49 characters. -/
theorem canLog_text_truncation_spec_witness :
    (49 : ℕ) < (List.replicate 50 (65 : Nat)).length ∧
    CanLog.textFrameCount (List.replicate 50 65) = 7 ∧
    (CanLog.log true ⟨true, false⟩ true ⟨3, 0⟩ 1 0 0
      (List.replicate 50 65)).1.length = 8 ∧
    (List.range 7).flatMap
        (fun i => ((List.replicate 50 (65 : Nat)).drop (i * 7)).take 7)
      = (List.replicate 50 (65 : Nat)).take 49 := by
  have h := canLog_text_truncation_spec ⟨true, false⟩ ⟨3, 0⟩ 1 0 0
    (List.replicate 50 65) rfl rfl (by decide) (by decide)
  refine ⟨by decide, h.1, ?_, h.2.2⟩
  rw [h.2.1]
  simp

end MgbDash
